import Mathlib

/-!
Verification of the fripack binary patcher (src/binary.rs) against its
natural-language specification.

The development shallowly embeds the relevant parts of `BinaryProcessor`:
the byte buffer is a `List Nat` (each entry one byte of the file), machine
integers are `Nat`/`Int` with explicit two's-complement reduction where the
source casts to `i32`, and fallible code returns `Except String`.

External library calls (the `object` crate ELF builder / PE writer, the
`object_rewrite` crate, the XZ encoder) are black boxes: the embedding
models the code of this repository around them, taking the states those
libraries produce (segment/section tables, the PE writer's output buffer)
as explicit inputs.
-/

/-! ## Byte-buffer primitives -/

/-- One byte of a buffer; out-of-range reads give 0 (reads in this
development are always guarded by explicit bounds). -/
def byteAt (data : List Nat) (i : Nat) : Nat := (data[i]?).getD 0

/-- The sub-slice `data[i .. i+k]`, as produced by a Rust range index. -/
def bytesAt (data : List Nat) (i k : Nat) : List Nat := (data.drop i).take k

/-- In-place overwrite of `bs` at offset `i`, the model of
`data[i..i+bs.len()].copy_from_slice(bs)`.  Faithful for
`i + bs.length ≤ data.length`, the only case in which the source does not
abort on a slice-bounds violation. -/
def writeBytes (data : List Nat) (i : Nat) (bs : List Nat) : List Nat :=
  data.take i ++ bs ++ data.drop (i + bs.length)

/-- Little-endian u32 read, `u32::from_le_bytes` on 4 buffer bytes. -/
def readU32LE (data : List Nat) (i : Nat) : Nat :=
  byteAt data i + 256 * byteAt data (i + 1) + 65536 * byteAt data (i + 2) +
    16777216 * byteAt data (i + 3)

/-- Little-endian i32 read: the u32 value reinterpreted as two's complement. -/
def readI32LE (data : List Nat) (i : Nat) : Int :=
  let u := readU32LE data i
  if u < 2147483648 then (u : Int) else (u : Int) - 4294967296

/-- Little-endian bytes of a u32 value. -/
def u32bytesLE (u : Nat) : List Nat :=
  [u % 256, u / 256 % 256, u / 65536 % 256, u / 16777216 % 256]

/-- Little-endian bytes of an i32 value (two's complement). -/
def i32bytesLE (x : Int) : List Nat := u32bytesLE ((x % 4294967296).toNat)

/-! ## Signed 32-bit arithmetic

The source computes `data_offset` on values cast with `as i32` and combined
with `i32` operations.  `wrap32` is reduction into `[-2^31, 2^31)`; `toI32`
is the `as i32` cast of an unsigned 64-bit value (silent truncation to the
low 32 bits, reinterpreted as two's complement); `i32add`/`i32sub` are the
wrapping i32 operations. -/

def wrap32 (x : Int) : Int := (x + 2147483648) % 4294967296 - 2147483648

def toI32 (n : Nat) : Int := wrap32 n

def i32add (a b : Int) : Int := wrap32 (a + b)

def i32sub (a b : Int) : Int := wrap32 (a - b)

/-- A 64-bit quantity representable by `i32` without truncation. -/
def fitsI32 (n : Nat) : Prop := n < 2147483648

/-! ## The EmbeddedConfig record (src/binary.rs, struct EmbeddedConfig)

A packed little-endian record of 21 bytes: five i32 fields and one bool. -/

structure EmbeddedConfig where
  magic1 : Int
  magic2 : Int
  version : Int
  data_size : Int
  data_offset : Int
  data_xz : Bool
deriving DecidableEq

/-- `EmbeddedConfig::new` from the source. -/
def EmbeddedConfig.new (data_size data_offset : Int) (data_xz : Bool) : EmbeddedConfig :=
  { magic1 := 0x0d000721, magic2 := 0x1f8a4e2b, version := 1,
    data_size := data_size, data_offset := data_offset, data_xz := data_xz }

/-- `EmbeddedConfig::default` from the source: the unpatched marker. -/
def EmbeddedConfig.zeroed : EmbeddedConfig := EmbeddedConfig.new 0 0 false

/-- `EmbeddedConfig::as_bytes`: the packed `repr(C)` little-endian layout,
21 bytes, `data_xz` serialized as one byte 0/1. -/
def EmbeddedConfig.asBytes (c : EmbeddedConfig) : List Nat :=
  i32bytesLE c.magic1 ++ i32bytesLE c.magic2 ++ i32bytesLE c.version ++
    i32bytesLE c.data_size ++ i32bytesLE c.data_offset ++
    [if c.data_xz then 1 else 0]

theorem EmbeddedConfig.asBytes_length (c : EmbeddedConfig) : c.asBytes.length = 21 := by
  simp [EmbeddedConfig.asBytes, i32bytesLE, u32bytesLE]

/-- The bytes of the unpatched marker as placed in the prebuilt loader. -/
def freshMarker : List Nat := EmbeddedConfig.zeroed.asBytes

/-! ## The marker scanner (src/binary.rs, find_embedded_config)

The source iterates `i` over `0 .. data.len().saturating_sub(21)`
(exclusive upper bound) and compares the four-byte slices at `i`, `i+4`,
`i+8`, `i+12`, `i+16` against the little-endian magics, version 1, and two
zero words. -/

/-- The byte-level predicate of one loop iteration of
`find_embedded_config`. -/
def matchesMarker (data : List Nat) (i : Nat) : Bool :=
  bytesAt data i 4 == [0x21, 0x07, 0x00, 0x0d] &&
  bytesAt data (i + 4) 4 == [0x2b, 0x4e, 0x8a, 0x1f] &&
  bytesAt data (i + 8) 4 == [1, 0, 0, 0] &&
  bytesAt data (i + 12) 4 == [0, 0, 0, 0] &&
  bytesAt data (i + 16) 4 == [0, 0, 0, 0]

/-- `BinaryProcessor::find_embedded_config`.  `Nat` subtraction is
saturating, exactly like `usize::saturating_sub` in the source. -/
def find_embedded_config (data : List Nat) : Option Nat :=
  (List.range (data.length - 21)).find? (fun i => matchesMarker data i)

/-! ## Generic lemmas: find? over a range, and writeBytes frames -/

theorem find?_append_eq {α : Type} (p : α → Bool) (l1 l2 : List α) :
    (l1 ++ l2).find? p = (l1.find? p).orElse (fun _ => l2.find? p) := by
  induction l1 with
  | nil => simp [Option.orElse]
  | cons a l ih =>
    rw [List.cons_append, List.find?, List.find?]
    cases h : p a <;> simp [h, ih, Option.orElse]

theorem range_find?_eq_some_iff (p : Nat → Bool) (n i : Nat) :
    (List.range n).find? p = some i ↔
      (i < n ∧ p i = true ∧ ∀ j, j < i → p j = false) := by
  induction n with
  | zero => simp [List.range_zero]
  | succ n ih =>
    rw [show n + 1 = n + 1 from rfl, List.range_succ n, find?_append_eq]
    constructor
    · intro h
      cases hfind : (List.range n).find? p with
      | some k =>
        rw [hfind] at h
        simp [Option.orElse] at h
        subst h
        obtain ⟨hk, hpk, hmin⟩ := ih.mp hfind
        exact ⟨Nat.lt_succ_of_lt hk, hpk, hmin⟩
      | none =>
        rw [hfind] at h
        simp [Option.orElse, List.find?] at h
        cases hpn : p n with
        | false => rw [hpn] at h; simp at h
        | true =>
          rw [hpn] at h
          simp at h
          subst h
          refine ⟨Nat.lt_succ_self n, hpn, ?_⟩
          intro j hj
          have := List.find?_eq_none.mp hfind j (List.mem_range.mpr hj)
          simpa using this
    · rintro ⟨hi, hpi, hmin⟩
      rcases Nat.lt_succ_iff_lt_or_eq.mp hi with hlt | rfl
      · have := ih.mpr ⟨hlt, hpi, hmin⟩
        rw [this]
        simp [Option.orElse]
      · have hnone : (List.range i).find? p = none := by
          apply List.find?_eq_none.mpr
          intro j hj
          simp [hmin j (List.mem_range.mp hj)]
        rw [hnone]
        simp [Option.orElse, List.find?, hpi]

theorem range_find?_eq_none_iff (p : Nat → Bool) (n : Nat) :
    (List.range n).find? p = none ↔ ∀ j, j < n → p j = false := by
  rw [List.find?_eq_none]
  constructor
  · intro h j hj
    have := h j (List.mem_range.mpr hj)
    simpa using this
  · intro h j hj
    simp [h j (List.mem_range.mp hj)]

theorem find_embedded_config_some_iff (data : List Nat) (i : Nat) :
    find_embedded_config data = some i ↔
      (i + 21 < data.length ∧ matchesMarker data i = true ∧
        ∀ j, j < i → matchesMarker data j = false) := by
  rw [find_embedded_config, range_find?_eq_some_iff]
  constructor
  · rintro ⟨h1, h2, h3⟩
    exact ⟨by omega, h2, h3⟩
  · rintro ⟨h1, h2, h3⟩
    exact ⟨by omega, h2, h3⟩

theorem find_embedded_config_none_iff (data : List Nat) :
    find_embedded_config data = none ↔
      ∀ j, j + 21 < data.length → matchesMarker data j = false := by
  rw [find_embedded_config, range_find?_eq_none_iff]
  constructor
  · intro h j hj
    exact h j (by omega)
  · intro h j hj
    exact h j (by omega)

theorem writeBytes_length (data bs : List Nat) (i : Nat)
    (h : i + bs.length ≤ data.length) :
    (writeBytes data i bs).length = data.length := by
  simp [writeBytes, List.length_take, List.length_drop]
  omega

theorem writeBytes_getElem?_lt (data bs : List Nat) (i j : Nat)
    (h : i + bs.length ≤ data.length) (hj : j < i) :
    (writeBytes data i bs)[j]? = data[j]? := by
  have hi : i ≤ data.length := by omega
  have htk : (data.take i).length = i := by simp [List.length_take]; omega
  rw [writeBytes, List.append_assoc, List.getElem?_append_left (by omega)]
  exact List.getElem?_take_of_lt hj

theorem writeBytes_getElem?_ge (data bs : List Nat) (i j : Nat)
    (h : i + bs.length ≤ data.length) (hj : i + bs.length ≤ j) :
    (writeBytes data i bs)[j]? = data[j]? := by
  have htk : (data.take i).length = i := by simp [List.length_take]; omega
  rw [writeBytes, List.append_assoc,
    List.getElem?_append_right (by rw [htk]; omega)]
  rw [htk]
  rw [List.getElem?_append_right (by omega)]
  rw [List.getElem?_drop]
  congr 1
  omega

theorem writeBytes_getElem?_in (data bs : List Nat) (i j : Nat)
    (h : i + bs.length ≤ data.length) (hj : j < bs.length) :
    (writeBytes data i bs)[i + j]? = bs[j]? := by
  have htk : (data.take i).length = i := by simp [List.length_take]; omega
  rw [writeBytes, List.append_assoc,
    List.getElem?_append_right (by rw [htk]; omega)]
  rw [htk]
  rw [List.getElem?_append_left (by omega)]
  congr 1
  omega

theorem bytesAt_getElem? (data : List Nat) (i k j : Nat) (hj : j < k) :
    (bytesAt data i k)[j]? = data[i + j]? := by
  rw [bytesAt, List.getElem?_take_of_lt hj, List.getElem?_drop]

/-! ## Round-trip lemmas for the record serialization -/

theorem readU32LE_writeBytes (data bs : List Nat) (e k u : Nat)
    (hlen : e + bs.length ≤ data.length) (hk : k + 4 ≤ bs.length)
    (hb0 : bs[k]? = some (u % 256)) (hb1 : bs[k + 1]? = some (u / 256 % 256))
    (hb2 : bs[k + 2]? = some (u / 65536 % 256))
    (hb3 : bs[k + 3]? = some (u / 16777216 % 256))
    (hu : u < 4294967296) :
    readU32LE (writeBytes data e bs) (e + k) = u := by
  have g0 := writeBytes_getElem?_in data bs e k hlen (by omega)
  have g1 := writeBytes_getElem?_in data bs e (k + 1) hlen (by omega)
  have g2 := writeBytes_getElem?_in data bs e (k + 2) hlen (by omega)
  have g3 := writeBytes_getElem?_in data bs e (k + 3) hlen (by omega)
  rw [hb0] at g0
  rw [hb1] at g1
  rw [hb2] at g2
  rw [hb3] at g3
  rw [readU32LE, byteAt, byteAt, byteAt, byteAt]
  rw [show e + k + 1 = e + (k + 1) from by omega,
      show e + k + 2 = e + (k + 2) from by omega,
      show e + k + 3 = e + (k + 3) from by omega]
  rw [g0, g1, g2, g3]
  simp only [Option.getD_some]
  omega

theorem emod32_toNat_lt (x : Int) : (x % 4294967296).toNat < 4294967296 := by
  have h1 : 0 ≤ x % 4294967296 := Int.emod_nonneg x (by norm_num)
  have h2 : x % 4294967296 < 4294967296 := Int.emod_lt_of_pos x (by norm_num)
  omega

theorem record_readU32_magic1 (data : List Nat) (e : Nat) (c : EmbeddedConfig)
    (h : e + 21 ≤ data.length) :
    readU32LE (writeBytes data e c.asBytes) (e + 0) = (c.magic1 % 4294967296).toNat := by
  apply readU32LE_writeBytes data c.asBytes e 0 _ h
    (by rw [EmbeddedConfig.asBytes_length]; omega) rfl rfl rfl rfl (emod32_toNat_lt _)

theorem record_readU32_magic2 (data : List Nat) (e : Nat) (c : EmbeddedConfig)
    (h : e + 21 ≤ data.length) :
    readU32LE (writeBytes data e c.asBytes) (e + 4) = (c.magic2 % 4294967296).toNat := by
  apply readU32LE_writeBytes data c.asBytes e 4 _ h
    (by rw [EmbeddedConfig.asBytes_length]; omega) rfl rfl rfl rfl (emod32_toNat_lt _)

theorem record_readU32_version (data : List Nat) (e : Nat) (c : EmbeddedConfig)
    (h : e + 21 ≤ data.length) :
    readU32LE (writeBytes data e c.asBytes) (e + 8) = (c.version % 4294967296).toNat := by
  apply readU32LE_writeBytes data c.asBytes e 8 _ h
    (by rw [EmbeddedConfig.asBytes_length]; omega) rfl rfl rfl rfl (emod32_toNat_lt _)

theorem record_readU32_data_size (data : List Nat) (e : Nat) (c : EmbeddedConfig)
    (h : e + 21 ≤ data.length) :
    readU32LE (writeBytes data e c.asBytes) (e + 12) = (c.data_size % 4294967296).toNat := by
  apply readU32LE_writeBytes data c.asBytes e 12 _ h
    (by rw [EmbeddedConfig.asBytes_length]; omega) rfl rfl rfl rfl (emod32_toNat_lt _)

theorem record_readU32_data_offset (data : List Nat) (e : Nat) (c : EmbeddedConfig)
    (h : e + 21 ≤ data.length) :
    readU32LE (writeBytes data e c.asBytes) (e + 16) = (c.data_offset % 4294967296).toNat := by
  apply readU32LE_writeBytes data c.asBytes e 16 _ h
    (by rw [EmbeddedConfig.asBytes_length]; omega) rfl rfl rfl rfl (emod32_toNat_lt _)

theorem record_xz_byte (data : List Nat) (e : Nat) (c : EmbeddedConfig)
    (h : e + 21 ≤ data.length) :
    (writeBytes data e c.asBytes)[e + 20]? = some (if c.data_xz then 1 else 0) := by
  have g := writeBytes_getElem?_in data c.asBytes e 20 h
    (by rw [EmbeddedConfig.asBytes_length]; omega)
  rw [g]
  rfl

theorem record_readI32_data_offset (data : List Nat) (e : Nat) (c : EmbeddedConfig)
    (h : e + 21 ≤ data.length) (hlb : -2147483648 ≤ c.data_offset)
    (hub : c.data_offset < 2147483648) :
    readI32LE (writeBytes data e c.asBytes) (e + 16) = c.data_offset := by
  rw [readI32LE, record_readU32_data_offset data e c h]
  split <;> omega

theorem record_readI32_data_size (data : List Nat) (e : Nat) (c : EmbeddedConfig)
    (h : e + 21 ≤ data.length) (hlb : -2147483648 ≤ c.data_size)
    (hub : c.data_size < 2147483648) :
    readI32LE (writeBytes data e c.asBytes) (e + 12) = c.data_size := by
  rw [readI32LE, record_readU32_data_size data e c h]
  split <;> omega

/-! ## wrap32 arithmetic lemmas -/

theorem wrap32_lb (x : Int) : -2147483648 ≤ wrap32 x := by
  unfold wrap32
  omega

theorem wrap32_ub (x : Int) : wrap32 x < 2147483648 := by
  unfold wrap32
  omega

theorem wrap32_add_wrap (a b : Int) : wrap32 (wrap32 a + wrap32 b) = wrap32 (a + b) := by
  unfold wrap32
  omega

theorem wrap32_sub_wrap (a b : Int) : wrap32 (wrap32 a - wrap32 b) = wrap32 (a - b) := by
  unfold wrap32
  omega

theorem toI32_of_fitsI32 (n : Nat) (h : fitsI32 n) : toI32 n = (n : Int) := by
  unfold fitsI32 at h
  unfold toI32 wrap32
  omega

/-- The three-term data_offset expression of §4.6 evaluated exactly in
unbounded signed arithmetic. -/
def exactDataOffset (nOff e sOff nV sV : Nat) : Int :=
  ((nOff : Int) - (e : Int)) - ((nOff : Int) - (sOff : Int)) + ((nV : Int) - (sV : Int))

/-- The three-term data_offset expression of §4.6 evaluated the way the
source evaluates it: every operand cast to i32 (truncating), every
operation a wrapping i32 operation. -/
def dataOffsetI32 (nOff e sOff nV sV : Nat) : Int :=
  i32add (i32sub (i32sub (toI32 nOff) (toI32 e)) (i32sub (toI32 nOff) (toI32 sOff)))
    (i32sub (toI32 nV) (toI32 sV))

theorem dataOffsetI32_eq_wrap_exact (nOff e sOff nV sV : Nat) :
    dataOffsetI32 nOff e sOff nV sV = wrap32 (exactDataOffset nOff e sOff nV sV) := by
  unfold dataOffsetI32 exactDataOffset i32add i32sub toI32
  rw [wrap32_sub_wrap (nOff : Int) (e : Int), wrap32_sub_wrap (nOff : Int) (sOff : Int),
      wrap32_sub_wrap (nV : Int) (sV : Int), wrap32_sub_wrap, wrap32_add_wrap]

theorem dataOffsetI32_lb (nOff e sOff nV sV : Nat) :
    -2147483648 ≤ dataOffsetI32 nOff e sOff nV sV := by
  rw [dataOffsetI32_eq_wrap_exact]
  exact wrap32_lb _

theorem dataOffsetI32_ub (nOff e sOff nV sV : Nat) :
    dataOffsetI32 nOff e sOff nV sV < 2147483648 := by
  rw [dataOffsetI32_eq_wrap_exact]
  exact wrap32_ub _

/-! ## Byte-level vs numeric view of the marker predicate -/

theorem byteAt_lt_256 (data : List Nat) (hb : ∀ b ∈ data, b < 256) (i : Nat) :
    byteAt data i < 256 := by
  rw [byteAt]
  cases h : data[i]? with
  | none => simp only [Option.getD_none]; omega
  | some a =>
    simp only [Option.getD_some]
    apply hb
    obtain ⟨hn, rfl⟩ := List.getElem?_eq_some.mp h
    exact List.getElem_mem hn

theorem byteAt_eq_of_getElem? (data : List Nat) (i v : Nat) (h : data[i]? = some v) :
    byteAt data i = v := by
  rw [byteAt, h]
  rfl

theorem getElem?_eq_byteAt (data : List Nat) (i : Nat) (h : i < data.length) :
    data[i]? = some (byteAt data i) := by
  rw [byteAt, List.getElem?_eq_getElem h]
  rfl

theorem bytesAt4_eq_iff_readU32 (data : List Nat) (i : Nat)
    (h : i + 4 ≤ data.length) (hb : ∀ b ∈ data, b < 256)
    (c0 c1 c2 c3 : Nat) (h0 : c0 < 256) (h1 : c1 < 256) (h2 : c2 < 256)
    (h3 : c3 < 256) :
    (bytesAt data i 4 = [c0, c1, c2, c3]) ↔
      readU32LE data i = c0 + 256 * c1 + 65536 * c2 + 16777216 * c3 := by
  constructor
  · intro heq
    have e0 : data[i]? = some c0 := by
      have hx := bytesAt_getElem? data i 4 0 (by omega)
      rw [heq] at hx
      simpa using hx.symm
    have e1 : data[i + 1]? = some c1 := by
      have hx := bytesAt_getElem? data i 4 1 (by omega)
      rw [heq] at hx
      simpa using hx.symm
    have e2 : data[i + 2]? = some c2 := by
      have hx := bytesAt_getElem? data i 4 2 (by omega)
      rw [heq] at hx
      simpa using hx.symm
    have e3 : data[i + 3]? = some c3 := by
      have hx := bytesAt_getElem? data i 4 3 (by omega)
      rw [heq] at hx
      simpa using hx.symm
    rw [readU32LE, byteAt_eq_of_getElem? data i c0 e0,
        byteAt_eq_of_getElem? data (i + 1) c1 e1,
        byteAt_eq_of_getElem? data (i + 2) c2 e2,
        byteAt_eq_of_getElem? data (i + 3) c3 e3]
  · intro heq
    have l0 := byteAt_lt_256 data hb i
    have l1 := byteAt_lt_256 data hb (i + 1)
    have l2 := byteAt_lt_256 data hb (i + 2)
    have l3 := byteAt_lt_256 data hb (i + 3)
    rw [readU32LE] at heq
    have b0 : byteAt data i = c0 := by omega
    have b1 : byteAt data (i + 1) = c1 := by omega
    have b2 : byteAt data (i + 2) = c2 := by omega
    have b3 : byteAt data (i + 3) = c3 := by omega
    apply List.ext_getElem?
    intro n
    match n with
    | 0 =>
      rw [bytesAt_getElem? data i 4 0 (by omega)]
      rw [show i + 0 = i from rfl, getElem?_eq_byteAt data i (by omega), b0]
      rfl
    | 1 =>
      rw [bytesAt_getElem? data i 4 1 (by omega)]
      rw [getElem?_eq_byteAt data (i + 1) (by omega), b1]
      rfl
    | 2 =>
      rw [bytesAt_getElem? data i 4 2 (by omega)]
      rw [getElem?_eq_byteAt data (i + 2) (by omega), b2]
      rfl
    | 3 =>
      rw [bytesAt_getElem? data i 4 3 (by omega)]
      rw [getElem?_eq_byteAt data (i + 3) (by omega), b3]
      rfl
    | (n + 4) =>
      have hl : (bytesAt data i 4).length = 4 := by
        rw [bytesAt]
        simp [List.length_take, List.length_drop]
        omega
      rw [List.getElem?_eq_none_iff.mpr (by rw [hl]; omega),
          List.getElem?_eq_none_iff.mpr (by simp)]

/-- The marker predicate of the specification, stated on the decoded
little-endian field values: both magics, version 1, and zero data_size and
data_offset simultaneously. -/
def markerPredU (data : List Nat) (i : Nat) : Prop :=
  readU32LE data i = 0x0d000721 ∧ readU32LE data (i + 4) = 0x1f8a4e2b ∧
  readU32LE data (i + 8) = 1 ∧ readU32LE data (i + 12) = 0 ∧
  readU32LE data (i + 16) = 0

theorem matchesMarker_iff_markerPredU (data : List Nat) (i : Nat)
    (h : i + 20 ≤ data.length) (hb : ∀ b ∈ data, b < 256) :
    matchesMarker data i = true ↔ markerPredU data i := by
  rw [matchesMarker, markerPredU]
  simp only [Bool.and_eq_true, beq_iff_eq]
  rw [bytesAt4_eq_iff_readU32 data i (by omega) hb _ _ _ _
        (by norm_num) (by norm_num) (by norm_num) (by norm_num),
      bytesAt4_eq_iff_readU32 data (i + 4) (by omega) hb _ _ _ _
        (by norm_num) (by norm_num) (by norm_num) (by norm_num),
      bytesAt4_eq_iff_readU32 data (i + 8) (by omega) hb _ _ _ _
        (by norm_num) (by norm_num) (by norm_num) (by norm_num),
      bytesAt4_eq_iff_readU32 data (i + 12) (by omega) hb _ _ _ _
        (by norm_num) (by norm_num) (by norm_num) (by norm_num),
      bytesAt4_eq_iff_readU32 data (i + 16) (by omega) hb _ _ _ _
        (by norm_num) (by norm_num) (by norm_num) (by norm_num)]
  constructor
  · rintro ⟨⟨⟨⟨h1, h2⟩, h3⟩, h4⟩, h5⟩
    exact ⟨by omega, by omega, by omega, by omega, by omega⟩
  · rintro ⟨h1, h2, h3, h4, h5⟩
    exact ⟨⟨⟨⟨by omega, by omega⟩, by omega⟩, by omega⟩, by omega⟩

/-! ## Claim C4: the scanner's result characterization -/

/-- C4 (amended): `find_embedded_config` returns `some i` exactly for the
smallest offset `i` with `i + 21 < data.length` (strictly less: the
exclusive scan range `0 .. len.saturating_sub(21)` never tests the offset
at which a record would end flush with the buffer) whose record bytes
decode to both magics, version 1, and zero `data_size` and `data_offset`;
it returns `none` exactly when no such offset exists. -/
theorem find_embedded_config_spec (data : List Nat)
    (hb : ∀ b ∈ data, b < 256) :
    (∀ i, find_embedded_config data = some i ↔
      (i + 21 < data.length ∧ markerPredU data i ∧
        ∀ j, j < i → ¬ markerPredU data j)) ∧
    (find_embedded_config data = none ↔
      ∀ j, j + 21 < data.length → ¬ markerPredU data j) := by
  constructor
  · intro i
    rw [find_embedded_config_some_iff]
    constructor
    · rintro ⟨h1, h2, h3⟩
      refine ⟨h1, (matchesMarker_iff_markerPredU data i (by omega) hb).mp h2, ?_⟩
      intro j hj hpred
      have hj21 : j + 20 ≤ data.length := by omega
      have := (matchesMarker_iff_markerPredU data j hj21 hb).mpr hpred
      rw [h3 j hj] at this
      cases this
    · rintro ⟨h1, h2, h3⟩
      refine ⟨h1, (matchesMarker_iff_markerPredU data i (by omega) hb).mpr h2, ?_⟩
      intro j hj
      cases hmm : matchesMarker data j with
      | false => rfl
      | true =>
        have hj21 : j + 20 ≤ data.length := by omega
        have := (matchesMarker_iff_markerPredU data j hj21 hb).mp hmm
        exact absurd this (h3 j hj)
  · rw [find_embedded_config_none_iff]
    constructor
    · intro h j hj hpred
      have := (matchesMarker_iff_markerPredU data j (by omega) hb).mpr hpred
      rw [h j hj] at this
      cases this
    · intro h j hj
      cases hmm : matchesMarker data j with
      | false => rfl
      | true =>
        have := (matchesMarker_iff_markerPredU data j (by omega) hb).mp hmm
        exact absurd this (h j hj)

/-- Witness for C4 at a concrete buffer: an unpatched marker followed by
two padding bytes, found at offset 0. -/
def bufC4W : List Nat := freshMarker ++ [0, 0]

theorem find_embedded_config_spec_witness :
    (∀ i, find_embedded_config bufC4W = some i ↔
      (i + 21 < bufC4W.length ∧ markerPredU bufC4W i ∧
        ∀ j, j < i → ¬ markerPredU bufC4W j)) ∧
    (find_embedded_config bufC4W = none ↔
      ∀ j, j + 21 < bufC4W.length → ¬ markerPredU bufC4W j) :=
  find_embedded_config_spec bufC4W (by decide)

/-- Counterexample to C4 as stated: a buffer of exactly 21 bytes that is an
unpatched marker record.  The offset 0 satisfies `0 + 21 ≤ length` and the
full predicate, yet the scanner returns `none` because its scan range
`0 .. 21 - 21` is empty. -/
theorem find_embedded_config_misses_trailing_marker :
    find_embedded_config freshMarker = none ∧
      matchesMarker freshMarker 0 = true ∧ freshMarker.length = 21 ∧
      markerPredU freshMarker 0 := by
  refine ⟨by decide, by decide, by decide, by unfold markerPredU; decide⟩

/-! ## ELF model

The editable ELF view of the `object` crate's builder, restricted to the
fields the code of this repository reads or writes.  Sections are referred
to by numeric identity, mirroring the crate's `SectionId`. -/

/-- `p_type` value of a loadable segment (`object::elf::PT_LOAD`). -/
def pt_load : Nat := 1

/-- `p_type` value of the dynamic segment (`object::elf::PT_DYNAMIC`). -/
def pt_dynamic : Nat := 2

/-- `p_type` value of the program-header segment (`object::elf::PT_PHDR`). -/
def pt_phdr : Nat := 6

/-- `sh_type` value of the dynamic section (`object::elf::SHT_DYNAMIC`). -/
def sht_dynamic : Nat := 6

/-- `d_tag` value of a needed-library entry (`object::elf::DT_NEEDED`). -/
def dt_needed : Nat := 1

structure ElfSegment where
  p_type : Nat
  p_offset : Nat
  p_vaddr : Nat
  p_filesz : Nat
  p_memsz : Nat
  secIds : List Nat
deriving DecidableEq

structure ElfSection where
  sh_type : Nat
  sh_offset : Nat
  sh_addr : Nat
  sh_size : Nat
deriving DecidableEq

/-- One entry of the dynamic table. -/
structure DynEntry where
  tag : Nat
  val : List Nat
deriving DecidableEq

/-- The parts of the builder's ELF state that `add_needed_library`
manipulates. -/
structure ElfModel where
  segments : List ElfSegment
  sections : List ElfSection
  dynamics : List DynEntry
deriving DecidableEq

def isPhdrSeg (s : ElfSegment) : Bool := s.p_type == pt_phdr

def isHeaderLoadSeg (s : ElfSegment) : Bool := s.p_type == pt_load && s.p_offset == 0

def isDynamicSeg (s : ElfSegment) : Bool := s.p_type == pt_dynamic

def isDynamicSec (s : ElfSection) : Bool := s.sh_type == sht_dynamic

/-- The predicate of the marker-segment search in `add_embedded_config_data`:
`seg.p_offset <= off && off < seg.p_offset + seg.p_filesz`. -/
def segContainsOffset (off : Nat) (s : ElfSegment) : Bool :=
  decide (s.p_offset ≤ off) && decide (off < s.p_offset + s.p_filesz)

/-- The predicate of the payload-segment search:
`seg.sections.contains(&fripack_section_id)`. -/
def segHasSection (secId : Nat) (s : ElfSegment) : Bool := s.secIds.contains secId

/-- The model of `iter_mut().find(...)` followed by a mutation of the found
element: replaces the first element satisfying `p` by its image under `f`
and also returns the original element; `none` when no element matches. -/
def updateFirst {α : Type} (p : α → Bool) (f : α → α) : List α → Option (List α × α)
  | [] => none
  | x :: rest =>
    if p x then some (f x :: rest, x)
    else
      match updateFirst p f rest with
      | none => none
      | some (l, t) => some (x :: l, t)

theorem updateFirst_eq_none_iff {α : Type} (p : α → Bool) (f : α → α) (l : List α) :
    updateFirst p f l = none ↔ l.find? p = none := by
  induction l with
  | nil => simp [updateFirst]
  | cons x rest ih =>
    rw [updateFirst, List.find?]
    cases hx : p x with
    | true => simp
    | false =>
      simp only []
      cases hr : updateFirst p f rest with
      | none => simp [ih.mp hr]
      | some r =>
        simp only []
        constructor
        · intro h
          cases h
        · intro h
          rw [← ih] at h
          rw [h] at hr
          cases hr

theorem updateFirst_some_decomp {α : Type} (p : α → Bool) (f : α → α)
    (l l' : List α) (s : α) (h : updateFirst p f l = some (l', s)) :
    p s = true ∧ l.find? p = some s ∧
      ∃ l1 l2, l = l1 ++ s :: l2 ∧ l' = l1 ++ f s :: l2 ∧
        ∀ x ∈ l1, p x = false := by
  induction l generalizing l' with
  | nil => cases h
  | cons x rest ih =>
    rw [updateFirst] at h
    cases hx : p x with
    | true =>
      rw [hx] at h
      simp only [if_true] at h
      have h1 : f x :: rest = l' := congrArg Prod.fst (Option.some.inj h)
      have h2 : x = s := congrArg Prod.snd (Option.some.inj h)
      subst h2
      refine ⟨hx, ?_, [], rest, rfl, ?_, ?_⟩
      · rw [List.find?, hx]
      · rw [← h1]
        rfl
      · intro y hy
        cases hy
    | false =>
      rw [hx] at h
      rw [if_neg Bool.false_ne_true] at h
      cases hr : updateFirst p f rest with
      | none => rw [hr] at h; cases h
      | some r =>
        rw [hr] at h
        obtain ⟨lr, t⟩ := r
        have h1 : x :: lr = l' := congrArg Prod.fst (Option.some.inj h)
        have h2 : t = s := congrArg Prod.snd (Option.some.inj h)
        subst h2
        obtain ⟨hps, hfind, l1, l2, hdec, hdec', hfree⟩ := ih lr hr
        refine ⟨hps, ?_, x :: l1, l2, ?_, ?_, ?_⟩
        · rw [List.find?, hx]
          exact hfind
        · rw [hdec]
          rfl
        · rw [← h1, hdec']
          rfl
        · intro y hy
          rcases List.mem_cons.mp hy with rfl | hy'
          · exact hx
          · exact hfree y hy'

theorem find?_middle_swap {α : Type} (q : α → Bool) (l1 l2 : List α) (a b : α)
    (ha : q a = false) (hb : q b = false) :
    (l1 ++ b :: l2).find? q = (l1 ++ a :: l2).find? q := by
  rw [find?_append_eq, find?_append_eq]
  cases h : l1.find? q <;> simp [Option.orElse, List.find?, ha, hb]

theorem find?_first_hit {α : Type} (q : α → Bool) (l1 l2 : List α) (b : α)
    (h1 : ∀ x ∈ l1, q x = false) (hb : q b = true) :
    (l1 ++ b :: l2).find? q = some b := by
  rw [find?_append_eq]
  have hnone : l1.find? q = none := List.find?_eq_none.mpr (by
    intro x hx
    simp [h1 x hx])
  rw [hnone]
  simp [Option.orElse, List.find?, hb]

theorem updateFirst_find?_self {α : Type} (p : α → Bool) (f : α → α)
    (l l' : List α) (s : α) (h : updateFirst p f l = some (l', s))
    (hf : p (f s) = true) : l'.find? p = some (f s) := by
  obtain ⟨hp, hfind, l1, l2, rfl, rfl, hfree⟩ := updateFirst_some_decomp p f _ _ _ h
  exact find?_first_hit p l1 l2 (f s) hfree hf

theorem updateFirst_find?_other {α : Type} (p q : α → Bool) (f : α → α)
    (l l' : List α) (s : α) (h : updateFirst p f l = some (l', s))
    (hq1 : q s = false) (hq2 : q (f s) = false) : l'.find? q = l.find? q := by
  obtain ⟨hp, hfind, l1, l2, rfl, rfl, hfree⟩ := updateFirst_some_decomp p f _ _ _ h
  exact find?_middle_swap q l1 l2 s (f s) hq1 hq2

/-! ## ELF header-segment growth (src/binary.rs, add_embedded_config_data,
program-header resizing)

After the new segment is added, the source sets
`size = program_headers_size()` and then: if a `PT_PHDR` segment exists, it
records `size_diff = size - phdr.p_filesz` and sets the `PT_PHDR` sizes to
`size`; otherwise `size_diff = size`.  It then finds the first `PT_LOAD`
segment with `p_offset == 0` and adds `size_diff` to its `p_filesz` and
`p_memsz`, failing when no such segment exists.  `size` (the new
program-header-table size, produced by the external builder) is a
parameter. -/

/-- The closure applied to the `PT_PHDR` segment. -/
def setPhdrSize (size : Nat) (s : ElfSegment) : ElfSegment :=
  { s with p_filesz := size, p_memsz := size }

/-- The closure applied to the header-covering `PT_LOAD` segment. -/
def addSegSize (diff : Nat) (s : ElfSegment) : ElfSegment :=
  { s with p_filesz := s.p_filesz + diff, p_memsz := s.p_memsz + diff }

/-- Second half of the update: grow the first `PT_LOAD` with
`p_offset == 0` by `diff`. -/
def growWithDiff (diff : Nat) (segs1 : List ElfSegment) : Except String (List ElfSegment) :=
  match updateFirst isHeaderLoadSeg (addSegSize diff) segs1 with
  | none => Except.error "Failed to find PT_LOAD segment covering header (p_offset == 0)"
  | some (segs2, _) => Except.ok segs2

/-- The whole program-header resizing step of `add_embedded_config_data`. -/
def growHeaderSegment (size : Nat) (segs : List ElfSegment) : Except String (List ElfSegment) :=
  match updateFirst isPhdrSeg (setPhdrSize size) segs with
  | some (segs1, old) => growWithDiff (size - old.p_filesz) segs1
  | none => growWithDiff size segs

/-- The program-header-table size delta, as the specification describes it. -/
def phdrSizeDiff (size : Nat) (segs : List ElfSegment) : Nat :=
  match segs.find? isPhdrSeg with
  | some t => size - t.p_filesz
  | none => size

theorem setPhdrSize_isPhdr (size : Nat) (s : ElfSegment) :
    isPhdrSeg (setPhdrSize size s) = isPhdrSeg s := rfl

theorem setPhdrSize_headerLoad (size : Nat) (s : ElfSegment) :
    isHeaderLoadSeg (setPhdrSize size s) = isHeaderLoadSeg s := rfl

theorem addSegSize_isPhdr (d : Nat) (s : ElfSegment) :
    isPhdrSeg (addSegSize d s) = isPhdrSeg s := rfl

theorem addSegSize_headerLoad (d : Nat) (s : ElfSegment) :
    isHeaderLoadSeg (addSegSize d s) = isHeaderLoadSeg s := rfl

theorem phdr_not_headerLoad (s : ElfSegment) (h : isPhdrSeg s = true) :
    isHeaderLoadSeg s = false := by
  rw [isPhdrSeg] at h
  have ht : s.p_type = pt_phdr := by simpa using h
  rw [isHeaderLoadSeg, ht]
  rfl

theorem headerLoad_not_phdr (s : ElfSegment) (h : isHeaderLoadSeg s = true) :
    isPhdrSeg s = false := by
  rw [isHeaderLoadSeg, Bool.and_eq_true] at h
  have ht : s.p_type = pt_load := by simpa using h.1
  rw [isPhdrSeg, ht]
  rfl

theorem growHeaderSegment_eq_upd_none (size : Nat) (segs : List ElfSegment)
    (h : updateFirst isPhdrSeg (setPhdrSize size) segs = none) :
    growHeaderSegment size segs = growWithDiff size segs := by
  unfold growHeaderSegment
  rw [h]

theorem growHeaderSegment_eq_upd_some (size : Nat) (segs segs1 : List ElfSegment)
    (told : ElfSegment)
    (h : updateFirst isPhdrSeg (setPhdrSize size) segs = some (segs1, told)) :
    growHeaderSegment size segs = growWithDiff (size - told.p_filesz) segs1 := by
  unfold growHeaderSegment
  rw [h]

theorem growWithDiff_eq_error (diff : Nat) (segs1 : List ElfSegment)
    (h : updateFirst isHeaderLoadSeg (addSegSize diff) segs1 = none) :
    growWithDiff diff segs1 =
      Except.error "Failed to find PT_LOAD segment covering header (p_offset == 0)" := by
  unfold growWithDiff
  rw [h]

theorem growWithDiff_eq_ok (diff : Nat) (segs1 out : List ElfSegment) (s : ElfSegment)
    (h : updateFirst isHeaderLoadSeg (addSegSize diff) segs1 = some (out, s)) :
    growWithDiff diff segs1 = Except.ok out := by
  unfold growWithDiff
  rw [h]

/-- C6: in the ELF output of `add_embedded_config_data`, the (first)
`PT_LOAD` segment with `p_offset == 0` has `p_filesz` and `p_memsz` each
increased by exactly the program-header-table size delta: the new table
size minus the old `PT_PHDR.p_filesz` when a `PT_PHDR` exists (whose
`p_filesz`/`p_memsz` are set to the new size), and the full new table size
when no `PT_PHDR` exists; when no `PT_LOAD` with `p_offset == 0` is
present the operation fails with an error. -/
theorem growHeaderSegment_spec (size : Nat) (segs : List ElfSegment) :
    (segs.find? isHeaderLoadSeg = none →
      growHeaderSegment size segs =
        Except.error "Failed to find PT_LOAD segment covering header (p_offset == 0)") ∧
    (∀ s, segs.find? isHeaderLoadSeg = some s →
      ∃ out, growHeaderSegment size segs = Except.ok out ∧
        out.find? isHeaderLoadSeg =
          some { s with p_filesz := s.p_filesz + phdrSizeDiff size segs,
                        p_memsz := s.p_memsz + phdrSizeDiff size segs } ∧
        ∀ t, segs.find? isPhdrSeg = some t →
          out.find? isPhdrSeg = some { t with p_filesz := size, p_memsz := size }) := by
  constructor
  · intro hnone
    cases h1 : updateFirst isPhdrSeg (setPhdrSize size) segs with
    | none =>
      rw [growHeaderSegment_eq_upd_none size segs h1]
      apply growWithDiff_eq_error
      rw [updateFirst_eq_none_iff]
      exact hnone
    | some r =>
      obtain ⟨segs1, told⟩ := r
      have hdecp := updateFirst_some_decomp _ _ _ _ _ h1
      rw [growHeaderSegment_eq_upd_some size segs segs1 told h1]
      apply growWithDiff_eq_error
      rw [updateFirst_eq_none_iff]
      rw [updateFirst_find?_other isPhdrSeg isHeaderLoadSeg (setPhdrSize size) segs segs1 told h1
        (phdr_not_headerLoad told hdecp.1)
        (by rw [setPhdrSize_headerLoad]; exact phdr_not_headerLoad told hdecp.1)]
      exact hnone
  · intro s hs
    cases h1 : updateFirst isPhdrSeg (setPhdrSize size) segs with
    | none =>
      have hpnone : segs.find? isPhdrSeg = none := (updateFirst_eq_none_iff _ _ _).mp h1
      have hdiff : phdrSizeDiff size segs = size := by
        rw [phdrSizeDiff, hpnone]
      rw [growHeaderSegment_eq_upd_none size segs h1]
      cases h2 : updateFirst isHeaderLoadSeg (addSegSize size) segs with
      | none =>
        have := (updateFirst_eq_none_iff _ _ _).mp h2
        rw [this] at hs
        cases hs
      | some r2 =>
        obtain ⟨out, t2⟩ := r2
        have hdec2 := updateFirst_some_decomp _ _ _ _ _ h2
        have hfind2 : segs.find? isHeaderLoadSeg = some t2 := hdec2.2.1
        have hss : t2 = s := by
          rw [hfind2] at hs
          exact Option.some.inj hs
        subst hss
        refine ⟨out, growWithDiff_eq_ok _ _ _ _ h2, ?_, ?_⟩
        · have hout := updateFirst_find?_self _ _ _ _ _ h2
            (by rw [addSegSize_headerLoad]; exact hdec2.1)
          rw [hout, hdiff]
          rfl
        · intro t ht
          rw [hpnone] at ht
          cases ht
    | some r =>
      obtain ⟨segs1, told⟩ := r
      have hdecp := updateFirst_some_decomp _ _ _ _ _ h1
      have hpfind : segs.find? isPhdrSeg = some told := hdecp.2.1
      have hdiff : phdrSizeDiff size segs = size - told.p_filesz := by
        rw [phdrSizeDiff, hpfind]
      rw [growHeaderSegment_eq_upd_some size segs segs1 told h1]
      have hswap : segs1.find? isHeaderLoadSeg = segs.find? isHeaderLoadSeg :=
        updateFirst_find?_other isPhdrSeg isHeaderLoadSeg (setPhdrSize size) segs segs1 told h1
          (phdr_not_headerLoad told hdecp.1)
          (by rw [setPhdrSize_headerLoad]; exact phdr_not_headerLoad told hdecp.1)
      cases h2 : updateFirst isHeaderLoadSeg (addSegSize (size - told.p_filesz)) segs1 with
      | none =>
        have := (updateFirst_eq_none_iff _ _ _).mp h2
        rw [hswap] at this
        rw [this] at hs
        cases hs
      | some r2 =>
        obtain ⟨out, t2⟩ := r2
        have hdec2 := updateFirst_some_decomp _ _ _ _ _ h2
        have hfind2 : segs1.find? isHeaderLoadSeg = some t2 := hdec2.2.1
        have hss : t2 = s := by
          rw [hswap] at hfind2
          rw [hfind2] at hs
          exact Option.some.inj hs
        subst hss
        refine ⟨out, growWithDiff_eq_ok _ _ _ _ h2, ?_, ?_⟩
        · have hout := updateFirst_find?_self _ _ _ _ _ h2
            (by rw [addSegSize_headerLoad]; exact hdec2.1)
          rw [hout, hdiff]
          rfl
        · intro t ht
          have htt : t = told := by
            rw [hpfind] at ht
            exact (Option.some.inj ht).symm
          subst htt
          have hsw2 : out.find? isPhdrSeg = segs1.find? isPhdrSeg :=
            updateFirst_find?_other isHeaderLoadSeg isPhdrSeg (addSegSize (size - t.p_filesz))
              segs1 out t2 h2 (headerLoad_not_phdr t2 hdec2.1)
              (by rw [addSegSize_isPhdr]; exact headerLoad_not_phdr t2 hdec2.1)
          have hp1 : segs1.find? isPhdrSeg = some (setPhdrSize size t) :=
            updateFirst_find?_self _ _ _ _ _ h1
              (by rw [setPhdrSize_isPhdr]; exact hdecp.1)
          rw [hsw2, hp1]
          rfl

/-- A program-header segment and a header-covering load segment, used to
exercise `growHeaderSegment_spec` on concrete input. -/
def segPhdrW6 : ElfSegment :=
  { p_type := 6, p_offset := 64, p_vaddr := 64, p_filesz := 280, p_memsz := 280, secIds := [] }

def segLoadW6 : ElfSegment :=
  { p_type := 1, p_offset := 0, p_vaddr := 0, p_filesz := 4096, p_memsz := 4096, secIds := [1] }

def segsW6 : List ElfSegment := [segPhdrW6, segLoadW6]

theorem growHeaderSegment_spec_witness :
    ∃ out, growHeaderSegment 336 segsW6 = Except.ok out ∧
      out.find? isHeaderLoadSeg =
        some { segLoadW6 with p_filesz := segLoadW6.p_filesz + phdrSizeDiff 336 segsW6,
                              p_memsz := segLoadW6.p_memsz + phdrSizeDiff 336 segsW6 } ∧
      ∀ t, segsW6.find? isPhdrSeg = some t →
        out.find? isPhdrSeg = some { t with p_filesz := 336, p_memsz := 336 } :=
  (growHeaderSegment_spec 336 segsW6).2 segLoadW6 (by decide)

/-! ## ELF marker-patch stage (src/binary.rs, add_embedded_config_data,
lines after the final re-serialization)

After the rewritten ELF bytes are produced, the source re-parses them,
searches `self.data` for the unpatched marker, selects `S` as the first
segment with `p_offset <= E < p_offset + p_filesz` and `N` as the first
segment whose section list contains the new section's id, computes
`data_offset` with `as i32` casts and i32 arithmetic, and overwrites the
21 record bytes at `E` in place.  The re-parsed segment table and the new
section's id (produced by the external builder) are parameters. -/

/-- The record the ELF path writes back: `EmbeddedConfig::new(len, 0, xz)`
whose `data_offset` is then assigned the three-term i32 expression. -/
def elfPatchedConfig (e : Nat) (dseg nseg : ElfSegment) (storedLen : Nat)
    (use_xz : Bool) : EmbeddedConfig :=
  { EmbeddedConfig.new (toI32 storedLen) 0 use_xz with
    data_offset :=
      i32add (i32sub (i32sub (toI32 nseg.p_offset) (toI32 e))
                     (i32sub (toI32 nseg.p_offset) (toI32 dseg.p_offset)))
             (i32sub (toI32 nseg.p_vaddr) (toI32 dseg.p_vaddr)) }

def elfPatchStage (segs : List ElfSegment) (fripackId : Nat) (storedLen : Nat)
    (use_xz : Bool) (data : List Nat) : Except String (List Nat) :=
  match find_embedded_config data with
  | none => Except.error "Failed to find embedded config after adding data"
  | some e =>
    match segs.find? (segContainsOffset e) with
    | none => Except.error "Failed to find data segment"
    | some dseg =>
      match segs.find? (segHasSection fripackId) with
      | none => Except.error "Failed to find fripack_config segment"
      | some nseg =>
        Except.ok (writeBytes data e (elfPatchedConfig e dseg nseg storedLen use_xz).asBytes)

theorem elfPatchStage_eq_ok (segs : List ElfSegment) (fid len : Nat) (xz : Bool)
    (data : List Nat) (e : Nat) (dseg nseg : ElfSegment)
    (he : find_embedded_config data = some e)
    (hd : segs.find? (segContainsOffset e) = some dseg)
    (hn : segs.find? (segHasSection fid) = some nseg) :
    elfPatchStage segs fid len xz data =
      Except.ok (writeBytes data e (elfPatchedConfig e dseg nseg len xz).asBytes) := by
  unfold elfPatchStage
  simp only [he, hd, hn]

theorem elfPatchStage_ok_inv (segs : List ElfSegment) (fid len : Nat) (xz : Bool)
    (data out : List Nat)
    (h : elfPatchStage segs fid len xz data = Except.ok out) :
    ∃ e dseg nseg,
      find_embedded_config data = some e ∧
      segs.find? (segContainsOffset e) = some dseg ∧
      segs.find? (segHasSection fid) = some nseg ∧
      out = writeBytes data e (elfPatchedConfig e dseg nseg len xz).asBytes := by
  unfold elfPatchStage at h
  cases he : find_embedded_config data with
  | none =>
    simp only [he] at h
    exact Except.noConfusion h
  | some e =>
    simp only [he] at h
    cases hd : segs.find? (segContainsOffset e) with
    | none =>
      simp only [hd] at h
      exact Except.noConfusion h
    | some dseg =>
      simp only [hd] at h
      cases hn : segs.find? (segHasSection fid) with
      | none =>
        simp only [hn] at h
        exact Except.noConfusion h
      | some nseg =>
        simp only [hn] at h
        exact ⟨e, dseg, nseg, rfl, hd, rfl, (Except.ok.inj h).symm⟩

/-! ## PE marker-patch stage (src/binary.rs, copy_pe_file, tail)

After the PE writer has produced `out_data`, the source calls
`self.find_embedded_config()` - which scans `self.data`, i.e. the INPUT
bytes - takes the first input section whose raw-data range contains that
offset (defaulting to rva 0 / offset 0 when none does), computes the
`data_offset` expression on `as i32` casts of the new section range and
that pair, and overwrites 21 bytes at the input-derived offset inside
`out_data`.  The writer's output buffer, the reserved range of the new
`.fripac` section, and the copied input sections are parameters. -/

structure PeSection where
  virtual_address : Nat
  pointer_to_raw_data : Nat
  size_of_raw_data : Nat
deriving DecidableEq

/-- The (file_offset, virtual_address) range the PE writer reserved for the
new section. -/
structure SectionRange where
  file_offset : Nat
  virtual_address : Nat
deriving DecidableEq

/-- `embedded_config_offset >= section_start && embedded_config_offset < section_end`. -/
def peSecContains (off : Nat) (s : PeSection) : Bool :=
  decide (s.pointer_to_raw_data ≤ off) &&
    decide (off < s.pointer_to_raw_data + s.size_of_raw_data)

/-- The `(config_section_rva, config_section_offset)` pair: taken from the
first copied section containing the marker offset, `(0, 0)` when none
contains it. -/
def peConfigSectionPair (secs : List PeSection) (e : Nat) : Nat × Nat :=
  match secs.find? (peSecContains e) with
  | some s => (s.virtual_address, s.pointer_to_raw_data)
  | none => (0, 0)

/-- The record the PE path writes back: the caller's `embedded_config`
with `data_offset` assigned the three-term i32 expression. -/
def pePatchedConfig (cfg0 : EmbeddedConfig) (nr : SectionRange)
    (secs : List PeSection) (e : Nat) : EmbeddedConfig :=
  { cfg0 with
    data_offset :=
      i32add (i32sub (i32sub (toI32 nr.file_offset) (toI32 e))
                     (i32sub (toI32 nr.file_offset) (toI32 (peConfigSectionPair secs e).2)))
             (i32sub (toI32 nr.virtual_address) (toI32 (peConfigSectionPair secs e).1)) }

def copy_pe_patch (inData outData : List Nat) (nr : SectionRange)
    (secs : List PeSection) (cfg0 : EmbeddedConfig) : Except String (List Nat) :=
  match find_embedded_config inData with
  | none => Except.error "Failed to find embedded config after adding data"
  | some e => Except.ok (writeBytes outData e (pePatchedConfig cfg0 nr secs e).asBytes)

theorem copy_pe_patch_eq_ok (inData outData : List Nat) (nr : SectionRange)
    (secs : List PeSection) (cfg0 : EmbeddedConfig) (e : Nat)
    (he : find_embedded_config inData = some e) :
    copy_pe_patch inData outData nr secs cfg0 =
      Except.ok (writeBytes outData e (pePatchedConfig cfg0 nr secs e).asBytes) := by
  unfold copy_pe_patch
  simp only [he]

theorem copy_pe_patch_ok_inv (inData outData : List Nat) (nr : SectionRange)
    (secs : List PeSection) (cfg0 : EmbeddedConfig) (out : List Nat)
    (h : copy_pe_patch inData outData nr secs cfg0 = Except.ok out) :
    ∃ e, find_embedded_config inData = some e ∧
      out = writeBytes outData e (pePatchedConfig cfg0 nr secs e).asBytes := by
  unfold copy_pe_patch at h
  cases he : find_embedded_config inData with
  | none =>
    simp only [he] at h
    exact Except.noConfusion h
  | some e =>
    simp only [he] at h
    exact ⟨e, rfl, (Except.ok.inj h).symm⟩

theorem elfPatchedConfig_data_offset (e : Nat) (dseg nseg : ElfSegment)
    (len : Nat) (xz : Bool) :
    (elfPatchedConfig e dseg nseg len xz).data_offset =
      dataOffsetI32 nseg.p_offset e dseg.p_offset nseg.p_vaddr dseg.p_vaddr := rfl

theorem pePatchedConfig_data_offset (cfg0 : EmbeddedConfig) (nr : SectionRange)
    (secs : List PeSection) (e : Nat) (s : PeSection)
    (hs : secs.find? (peSecContains e) = some s) :
    (pePatchedConfig cfg0 nr secs e).data_offset =
      dataOffsetI32 nr.file_offset e s.pointer_to_raw_data nr.virtual_address
        s.virtual_address := by
  unfold pePatchedConfig dataOffsetI32 peConfigSectionPair
  rw [hs]

theorem find_embedded_config_bound (data : List Nat) (e : Nat)
    (h : find_embedded_config data = some e) : e + 21 < data.length :=
  ((find_embedded_config_some_iff data e).mp h).1

/-- C2: whenever `add_embedded_config_data` succeeds, the `data_offset`
written into the marker record at the patched offset `E` equals exactly the
three-term expression
`(N.file_offset - E) - (N.file_offset - S.file_offset) + (N.vaddr - S.vaddr)`
evaluated in signed 32-bit arithmetic, where `S` is the segment (ELF) or
section (PE) found to contain the marker and `N` the segment (ELF) or
reserved section range (PE) holding the appended payload; first conjunct:
the ELF path, second conjunct: the PE path. -/
theorem add_embedded_config_data_offset_formula :
    (∀ (segs : List ElfSegment) (fid len : Nat) (xz : Bool) (data : List Nat)
        (e : Nat) (dseg nseg : ElfSegment) (out : List Nat),
      elfPatchStage segs fid len xz data = Except.ok out →
      find_embedded_config data = some e →
      segs.find? (segContainsOffset e) = some dseg →
      segs.find? (segHasSection fid) = some nseg →
      readI32LE out (e + 16) =
        dataOffsetI32 nseg.p_offset e dseg.p_offset nseg.p_vaddr dseg.p_vaddr) ∧
    (∀ (ind outd : List Nat) (nr : SectionRange) (secs : List PeSection)
        (cfg0 : EmbeddedConfig) (e : Nat) (s : PeSection) (out : List Nat),
      copy_pe_patch ind outd nr secs cfg0 = Except.ok out →
      find_embedded_config ind = some e →
      e + 21 ≤ outd.length →
      secs.find? (peSecContains e) = some s →
      readI32LE out (e + 16) =
        dataOffsetI32 nr.file_offset e s.pointer_to_raw_data nr.virtual_address
          s.virtual_address) := by
  constructor
  · intro segs fid len xz data e dseg nseg out h he hd hn
    obtain ⟨e', dseg', nseg', he', hd', hn', hout⟩ :=
      elfPatchStage_ok_inv segs fid len xz data out h
    rw [he] at he'
    obtain rfl : e = e' := Option.some.inj he'
    rw [hd] at hd'
    obtain rfl : dseg = dseg' := Option.some.inj hd'
    rw [hn] at hn'
    obtain rfl : nseg = nseg' := Option.some.inj hn'
    subst hout
    have hb : e + 21 ≤ data.length := by
      have := find_embedded_config_bound data e he
      omega
    rw [← elfPatchedConfig_data_offset e dseg nseg len xz]
    apply record_readI32_data_offset data e _ hb
    · rw [elfPatchedConfig_data_offset]
      exact dataOffsetI32_lb _ _ _ _ _
    · rw [elfPatchedConfig_data_offset]
      exact dataOffsetI32_ub _ _ _ _ _
  · intro ind outd nr secs cfg0 e s out h he hb hs
    obtain ⟨e', he', hout⟩ := copy_pe_patch_ok_inv ind outd nr secs cfg0 out h
    rw [he] at he'
    obtain rfl : e = e' := Option.some.inj he'
    subst hout
    rw [← pePatchedConfig_data_offset cfg0 nr secs e s hs]
    apply record_readI32_data_offset outd e _ hb
    · rw [pePatchedConfig_data_offset cfg0 nr secs e s hs]
      exact dataOffsetI32_lb _ _ _ _ _
    · rw [pePatchedConfig_data_offset cfg0 nr secs e s hs]
      exact dataOffsetI32_ub _ _ _ _ _

/-- Extract the ok-payload of an `Except`, with a default. -/
def exceptOkD {e a : Type} (x : Except e a) (d : a) : a :=
  match x with
  | Except.ok v => v
  | Except.error _ => d

/-! Concrete inputs exercising the C2 theorem: a marker at offset 0 of a
22-byte buffer, a containing segment `S` and a payload segment `N` (ELF),
and a PE analogue with one copied section containing the marker. -/

def dataW2 : List Nat := freshMarker ++ [0]

def segSW2 : ElfSegment :=
  { p_type := 1, p_offset := 0, p_vaddr := 4096, p_filesz := 22, p_memsz := 22, secIds := [] }

def segNW2 : ElfSegment :=
  { p_type := 1, p_offset := 8192, p_vaddr := 20480, p_filesz := 4, p_memsz := 4, secIds := [7] }

def segsW2 : List ElfSegment := [segSW2, segNW2]

def outW2 : List Nat := exceptOkD (elfPatchStage segsW2 7 4 false dataW2) []

def inPW2 : List Nat := freshMarker ++ [0]

def outdPW2 : List Nat := List.replicate 40 0

def nrW2 : SectionRange := { file_offset := 1024, virtual_address := 16384 }

def secSW2 : PeSection :=
  { virtual_address := 4096, pointer_to_raw_data := 0, size_of_raw_data := 22 }

def secsPW2 : List PeSection := [secSW2]

def cfgPW2 : EmbeddedConfig := EmbeddedConfig.new 4 0 false

def outPW2 : List Nat := exceptOkD (copy_pe_patch inPW2 outdPW2 nrW2 secsPW2 cfgPW2) []

theorem add_embedded_config_data_offset_formula_witness :
    readI32LE outW2 (0 + 16) =
      dataOffsetI32 segNW2.p_offset 0 segSW2.p_offset segNW2.p_vaddr segSW2.p_vaddr ∧
    readI32LE outPW2 (0 + 16) =
      dataOffsetI32 nrW2.file_offset 0 secSW2.pointer_to_raw_data nrW2.virtual_address
        secSW2.virtual_address :=
  ⟨add_embedded_config_data_offset_formula.1 segsW2 7 4 false dataW2 0 segSW2 segNW2
      outW2 (by rfl) (by rfl) (by rfl) (by rfl),
    add_embedded_config_data_offset_formula.2 inPW2 outdPW2 nrW2 secsPW2 cfgPW2 0
      secSW2 outPW2 (by rfl) (by rfl) (by decide) (by rfl)⟩

/-! ## Claim C7: 32-bit arithmetic in the data_offset computation -/

/-- Concrete input refuting C7 as stated: segment addresses that do not fit
in `i32`. -/
def dataC7 : List Nat := freshMarker ++ [0]

def segSC7 : ElfSegment :=
  { p_type := 1, p_offset := 0, p_vaddr := 4294967296, p_filesz := 22,
    p_memsz := 22, secIds := [] }

def segNC7 : ElfSegment :=
  { p_type := 1, p_offset := 4294967296, p_vaddr := 8589934592, p_filesz := 4,
    p_memsz := 4, secIds := [9] }

def segsC7 : List ElfSegment := [segSC7, segNC7]

def outC7 : List Nat := exceptOkD (elfPatchStage segsC7 9 4 false dataC7) []

/-- Counterexample to C7 as stated: with a payload segment whose
`p_offset`/`p_vaddr` (2^32 and 2^33) do not fit in a signed 32-bit integer,
the patch stage still succeeds - the `as i32` casts silently truncate each
operand - and the written `data_offset` (0) differs from the exact value of
the three-term formula (2^32).  No error or assertion rejects the input. -/
theorem elf_data_offset_silent_truncation :
    elfPatchStage segsC7 9 4 false dataC7 = Except.ok outC7 ∧
    ¬ fitsI32 segNC7.p_vaddr ∧ ¬ fitsI32 segNC7.p_offset ∧
    readI32LE outC7 (0 + 16) = 0 ∧
    exactDataOffset segNC7.p_offset 0 segSC7.p_offset segNC7.p_vaddr segSC7.p_vaddr =
      4294967296 ∧
    readI32LE outC7 (0 + 16) ≠
      exactDataOffset segNC7.p_offset 0 segSC7.p_offset segNC7.p_vaddr segSC7.p_vaddr := by
  refine ⟨rfl, by unfold fitsI32; decide, by unfold fitsI32; decide, by decide,
    by unfold exactDataOffset; decide, by decide⟩

/-- C7 (amended): the operands of the `data_offset` computation are
converted with `as i32` casts, which silently truncate to the low 32 bits
in two's complement; the expression is then evaluated in wrapping 32-bit
arithmetic and written without any range check: whenever the marker and the
two segments are found, the stage succeeds and the stored `data_offset` is
`wrap32` of the exact three-term value - even when operands exceed the
signed 32-bit range, in which case the stored value differs from the exact
one instead of the operation rejecting the input. -/
theorem elfPatchStage_truncates_without_reject (segs : List ElfSegment)
    (fid len : Nat) (xz : Bool) (data : List Nat) (e : Nat)
    (dseg nseg : ElfSegment)
    (he : find_embedded_config data = some e)
    (hd : segs.find? (segContainsOffset e) = some dseg)
    (hn : segs.find? (segHasSection fid) = some nseg) :
    ∃ out, elfPatchStage segs fid len xz data = Except.ok out ∧
      readI32LE out (e + 16) =
        wrap32 (exactDataOffset nseg.p_offset e dseg.p_offset nseg.p_vaddr dseg.p_vaddr) := by
  refine ⟨_, elfPatchStage_eq_ok segs fid len xz data e dseg nseg he hd hn, ?_⟩
  have hb : e + 21 ≤ data.length := by
    have := find_embedded_config_bound data e he
    omega
  rw [← dataOffsetI32_eq_wrap_exact, ← elfPatchedConfig_data_offset e dseg nseg len xz]
  apply record_readI32_data_offset data e _ hb
  · rw [elfPatchedConfig_data_offset]
    exact dataOffsetI32_lb _ _ _ _ _
  · rw [elfPatchedConfig_data_offset]
    exact dataOffsetI32_ub _ _ _ _ _

theorem elfPatchStage_truncates_without_reject_witness :
    ∃ out, elfPatchStage segsC7 9 4 false dataC7 = Except.ok out ∧
      readI32LE out (0 + 16) =
        wrap32 (exactDataOffset segNC7.p_offset 0 segSC7.p_offset segNC7.p_vaddr
          segSC7.p_vaddr) :=
  elfPatchStage_truncates_without_reject segsC7 9 4 false dataC7 0 segSC7 segNC7
    (by rfl) (by rfl) (by rfl)

/-! ## Claim C5: the record after a successful embed -/

def dataC5 : List Nat := freshMarker ++ [0]

def segSC5 : ElfSegment :=
  { p_type := 1, p_offset := 0, p_vaddr := 4096, p_filesz := 22, p_memsz := 22,
    secIds := [] }

def segNC5 : ElfSegment :=
  { p_type := 1, p_offset := 4096, p_vaddr := 8192, p_filesz := 4, p_memsz := 4,
    secIds := [5] }

def segsC5 : List ElfSegment := [segSC5, segNC5]

def outC5 : List Nat := exceptOkD (elfPatchStage segsC5 5 4 false dataC5) []

/-- Counterexample to C5 as stated: after a successful embed of a 4-byte
payload, `find_embedded_config` on the resulting buffer returns `none`,
not `Some(E')`: the patched record has `data_size = 4 ≠ 0`, and the scanner
only matches records with zero `data_size` and `data_offset`. -/
theorem find_embedded_config_after_patch_none :
    elfPatchStage segsC5 5 4 false dataC5 = Except.ok outC5 ∧
    find_embedded_config dataC5 = some 0 ∧
    find_embedded_config outC5 = none := by
  refine ⟨rfl, by decide, by decide⟩

/-- C5 (amended): after a successful `add_embedded_config_data(P, xz)`, the
21-byte record at the patched offset `E` (the offset the operation found
the unpatched marker at) has `data_size` equal to the stored payload length
(as i32), `data_xz` equal to `xz`, and magic1 / magic2 / version unchanged;
however, since `data_size ≠ 0` for a nonempty payload, the patched record
no longer satisfies the scanner predicate, so `find_embedded_config` does
not return it (and returns `None` when no other unpatched marker exists). -/
theorem elfPatchStage_record_fields (segs : List ElfSegment) (fid len : Nat)
    (xz : Bool) (data out : List Nat) (e : Nat)
    (h : elfPatchStage segs fid len xz data = Except.ok out)
    (he : find_embedded_config data = some e) :
    readU32LE out (e + 0) = 0x0d000721 ∧
    readU32LE out (e + 4) = 0x1f8a4e2b ∧
    readU32LE out (e + 8) = 1 ∧
    readI32LE out (e + 12) = toI32 len ∧
    out[e + 20]? = some (if xz then 1 else 0) ∧
    (toI32 len ≠ 0 → matchesMarker out e = false) := by
  obtain ⟨e', dseg, nseg, he', hd', hn', hout⟩ :=
    elfPatchStage_ok_inv segs fid len xz data out h
  rw [he] at he'
  obtain rfl : e = e' := Option.some.inj he'
  subst hout
  have hb : e + 21 ≤ data.length := by
    have := find_embedded_config_bound data e he
    omega
  have hm1 : readU32LE (writeBytes data e (elfPatchedConfig e dseg nseg len xz).asBytes)
      (e + 0) = 0x0d000721 := by
    rw [record_readU32_magic1 data e _ hb]
    have hf : (elfPatchedConfig e dseg nseg len xz).magic1 = 0x0d000721 := rfl
    rw [hf]
    decide
  have hm2 : readU32LE (writeBytes data e (elfPatchedConfig e dseg nseg len xz).asBytes)
      (e + 4) = 0x1f8a4e2b := by
    rw [record_readU32_magic2 data e _ hb]
    have hf : (elfPatchedConfig e dseg nseg len xz).magic2 = 0x1f8a4e2b := rfl
    rw [hf]
    decide
  have hver : readU32LE (writeBytes data e (elfPatchedConfig e dseg nseg len xz).asBytes)
      (e + 8) = 1 := by
    rw [record_readU32_version data e _ hb]
    have hf : (elfPatchedConfig e dseg nseg len xz).version = 1 := rfl
    rw [hf]
    decide
  have hsz : readI32LE (writeBytes data e (elfPatchedConfig e dseg nseg len xz).asBytes)
      (e + 12) = toI32 len := by
    have : (elfPatchedConfig e dseg nseg len xz).data_size = toI32 len := rfl
    rw [← this]
    apply record_readI32_data_size data e _ hb
    · rw [this]
      exact wrap32_lb _
    · rw [this]
      exact wrap32_ub _
  refine ⟨hm1, hm2, hver, hsz, ?_, ?_⟩
  · have : (elfPatchedConfig e dseg nseg len xz).data_xz = xz := rfl
    rw [← this]
    exact record_xz_byte data e _ hb
  · intro hlen
    cases hmm : matchesMarker
        (writeBytes data e (elfPatchedConfig e dseg nseg len xz).asBytes) e with
    | false => rfl
    | true =>
      exfalso
      rw [matchesMarker] at hmm
      simp only [Bool.and_eq_true, beq_iff_eq] at hmm
      obtain ⟨⟨⟨⟨h1, h2⟩, h3⟩, h4⟩, h5⟩ := hmm
      have q0 : (writeBytes data e (elfPatchedConfig e dseg nseg len xz).asBytes)[e + 12]? =
          some 0 := by
        have hx := bytesAt_getElem?
          (writeBytes data e (elfPatchedConfig e dseg nseg len xz).asBytes) (e + 12) 4 0
          (by omega)
        rw [h4] at hx
        simpa using hx.symm
      have q1 : (writeBytes data e (elfPatchedConfig e dseg nseg len xz).asBytes)[e + 12 + 1]? =
          some 0 := by
        have hx := bytesAt_getElem?
          (writeBytes data e (elfPatchedConfig e dseg nseg len xz).asBytes) (e + 12) 4 1
          (by omega)
        rw [h4] at hx
        simpa using hx.symm
      have q2 : (writeBytes data e (elfPatchedConfig e dseg nseg len xz).asBytes)[e + 12 + 2]? =
          some 0 := by
        have hx := bytesAt_getElem?
          (writeBytes data e (elfPatchedConfig e dseg nseg len xz).asBytes) (e + 12) 4 2
          (by omega)
        rw [h4] at hx
        simpa using hx.symm
      have q3 : (writeBytes data e (elfPatchedConfig e dseg nseg len xz).asBytes)[e + 12 + 3]? =
          some 0 := by
        have hx := bytesAt_getElem?
          (writeBytes data e (elfPatchedConfig e dseg nseg len xz).asBytes) (e + 12) 4 3
          (by omega)
        rw [h4] at hx
        simpa using hx.symm
      have hu : readU32LE (writeBytes data e (elfPatchedConfig e dseg nseg len xz).asBytes)
          (e + 12) = 0 := by
        rw [readU32LE, byteAt_eq_of_getElem? _ _ _ q0, byteAt_eq_of_getElem? _ _ _ q1,
            byteAt_eq_of_getElem? _ _ _ q2, byteAt_eq_of_getElem? _ _ _ q3]
      rw [readI32LE, hu] at hsz
      norm_num at hsz
      exact hlen hsz.symm

/-! Concrete inputs exercising the amended C5 theorem, with XZ enabled. -/

def dataW5 : List Nat := freshMarker ++ [7]

def segSW5 : ElfSegment :=
  { p_type := 1, p_offset := 0, p_vaddr := 4096, p_filesz := 22, p_memsz := 22,
    secIds := [] }

def segNW5 : ElfSegment :=
  { p_type := 1, p_offset := 12288, p_vaddr := 32768, p_filesz := 5, p_memsz := 5,
    secIds := [3] }

def segsW5 : List ElfSegment := [segSW5, segNW5]

def outW5 : List Nat := exceptOkD (elfPatchStage segsW5 3 5 true dataW5) []

theorem elfPatchStage_record_fields_witness :
    readU32LE outW5 (0 + 0) = 0x0d000721 ∧
    readU32LE outW5 (0 + 4) = 0x1f8a4e2b ∧
    readU32LE outW5 (0 + 8) = 1 ∧
    readI32LE outW5 (0 + 12) = toI32 5 ∧
    outW5[0 + 20]? = some (if true then 1 else 0) ∧
    (toI32 5 ≠ 0 → matchesMarker outW5 0 = false) :=
  elfPatchStage_record_fields segsW5 3 5 true dataW5 outW5 0 (by rfl) (by rfl)

/-! ## Claim C3: which buffer the PE path scans for the marker -/

def inC3 : List Nat := freshMarker ++ [0]

def outC3 : List Nat := List.replicate 24 0 ++ freshMarker ++ [0]

def nrC3 : SectionRange := { file_offset := 1024, virtual_address := 8192 }

def secsC3 : List PeSection :=
  [{ virtual_address := 4096, pointer_to_raw_data := 0, size_of_raw_data := 22 }]

def cfgC3 : EmbeddedConfig := EmbeddedConfig.new 4 0 false

def patchedC3 : List Nat := exceptOkD (copy_pe_patch inC3 outC3 nrC3 secsC3 cfgC3) []

/-- Counterexample to C3 as stated: the PE tail patches at the offset found
by scanning the INPUT (`self.data`), not the writer's output.  Here the
input's marker is at 0 while the output produced by the rewrite has its
first full-predicate match at 24; the record (with `data_size = 4`) is
written at 0, and the output's own marker at 24 is left untouched (it still
matches the unpatched predicate after the patch). -/
theorem copy_pe_patch_scans_input_not_output :
    find_embedded_config inC3 = some 0 ∧
    find_embedded_config outC3 = some 24 ∧
    copy_pe_patch inC3 outC3 nrC3 secsC3 cfgC3 = Except.ok patchedC3 ∧
    readI32LE patchedC3 (0 + 12) = 4 ∧
    readI32LE patchedC3 (24 + 12) = 0 ∧
    matchesMarker patchedC3 24 = true := by
  refine ⟨by decide, by decide, rfl, by decide, by decide, by decide⟩

/-- C3 (amended): in the PE embed path, the marker offset `E` at which the
record is patched is obtained by running the §4.1 scanner on the INPUT
bytes (`self.data`); the record bytes are then written at offset `E` of the
rewritten output buffer, every other byte of which is passed through
unchanged. -/
theorem copy_pe_patch_marker_offset_from_input (inData outData : List Nat)
    (nr : SectionRange) (secs : List PeSection) (cfg0 : EmbeddedConfig)
    (out : List Nat)
    (h : copy_pe_patch inData outData nr secs cfg0 = Except.ok out) :
    ∃ e, find_embedded_config inData = some e ∧
      (e + 21 ≤ outData.length →
        (∀ j, j < 21 → out[e + j]? = (pePatchedConfig cfg0 nr secs e).asBytes[j]?) ∧
        ∀ j, j < e ∨ e + 21 ≤ j → out[j]? = outData[j]?) := by
  obtain ⟨e, he, hout⟩ := copy_pe_patch_ok_inv inData outData nr secs cfg0 out h
  subst hout
  refine ⟨e, he, fun hb => ⟨?_, ?_⟩⟩
  · intro j hj
    exact writeBytes_getElem?_in outData (pePatchedConfig cfg0 nr secs e).asBytes e j
      (by rw [EmbeddedConfig.asBytes_length]; omega)
      (by rw [EmbeddedConfig.asBytes_length]; omega)
  · intro j hj
    cases hj with
    | inl hlt =>
      exact writeBytes_getElem?_lt outData _ e j
        (by rw [EmbeddedConfig.asBytes_length]; omega) hlt
    | inr hge =>
      exact writeBytes_getElem?_ge outData _ e j
        (by rw [EmbeddedConfig.asBytes_length]; omega)
        (by rw [EmbeddedConfig.asBytes_length]; omega)

theorem copy_pe_patch_marker_offset_from_input_witness :
    ∃ e, find_embedded_config inC3 = some e ∧
      (e + 21 ≤ outC3.length →
        (∀ j, j < 21 → patchedC3[e + j]? = (pePatchedConfig cfgC3 nrC3 secsC3 e).asBytes[j]?) ∧
        ∀ j, j < e ∨ e + 21 ≤ j → patchedC3[j]? = outC3[j]?) :=
  copy_pe_patch_marker_offset_from_input inC3 outC3 nrC3 secsC3 cfgC3 patchedC3 (by rfl)

/-! ## Claim C10: the PE error path leaves the processor buffer untouched

`BinaryProcessor` holds the byte buffer and the detected format; the PE
branch of `add_embedded_config_data` computes
`out_data = self.copy_pe_file(...)?` - `copy_pe_file` takes `&self` and the
`?` propagates its error before anything is assigned - and only then stores
`self.data = out_data`. -/

inductive ObjectFormat
| elf
| pe
deriving DecidableEq

structure BinaryProcessor where
  data : List Nat
  format : ObjectFormat
deriving DecidableEq

/-- `BinaryProcessor::into_data`. -/
def BinaryProcessor.into_data (p : BinaryProcessor) : List Nat := p.data

/-- The PE branch of `add_embedded_config_data`, as a state transformer
returning the updated processor and the `Result`.  `storedLen` is the
length of the (possibly XZ-compressed) payload; the writer's output and
reservation are parameters as in `copy_pe_patch`. -/
def add_embedded_config_data_pe (p : BinaryProcessor) (outd : List Nat)
    (nr : SectionRange) (secs : List PeSection) (storedLen : Nat)
    (use_xz : Bool) : BinaryProcessor × Except String Unit :=
  match copy_pe_patch p.data outd nr secs
      (EmbeddedConfig.new (toI32 storedLen) 0 use_xz) with
  | Except.error msg => (p, Except.error msg)
  | Except.ok out => ({ p with data := out }, Except.ok ())

/-- C10: if the PE path of `add_embedded_config_data` returns an error (for
example, no unpatched marker was found during the rewrite), the processor's
byte buffer is byte-for-byte the one from before the call: the rewritten
bytes are stored only after the whole copy-and-patch pipeline succeeded. -/
theorem add_embedded_config_data_pe_error_frame (p : BinaryProcessor)
    (outd : List Nat) (nr : SectionRange) (secs : List PeSection)
    (storedLen : Nat) (use_xz : Bool) (msg : String)
    (h : (add_embedded_config_data_pe p outd nr secs storedLen use_xz).2 =
      Except.error msg) :
    (add_embedded_config_data_pe p outd nr secs storedLen use_xz).1.data =
      p.data := by
  unfold add_embedded_config_data_pe at h ⊢
  cases hc : copy_pe_patch p.data outd nr secs
      (EmbeddedConfig.new (toI32 storedLen) 0 use_xz) with
  | error m => simp only [hc]
  | ok out =>
    simp only [hc] at h
    exact Except.noConfusion h

def procC10 : BinaryProcessor :=
  { data := List.replicate 30 0, format := ObjectFormat.pe }

def nrC10 : SectionRange := { file_offset := 0, virtual_address := 0 }

theorem add_embedded_config_data_pe_error_frame_witness :
    (add_embedded_config_data_pe procC10 [] nrC10 [] 4 false).1.data =
      procC10.data :=
  add_embedded_config_data_pe_error_frame procC10 [] nrC10 [] 4 false
    "Failed to find embedded config after adding data" (by rfl)

/-! ## Claim C8: add_needed_library (src/binary.rs, lines 102-141)

The ELF branch first delegates the `DT_NEEDED` append to the external
`object_rewrite` crate, re-reads the bytes, drops orphan symbols and unused
versions, recomputes section sizes, and then - when a `PT_DYNAMIC` segment
exists - takes the `SHT_DYNAMIC` section's `sh_size` as the authoritative
value and assigns it to the segment's `p_filesz` and `p_memsz` (erroring
when the section is missing).  The append touches only the dynamic table
and the repair touches only the segment table, so the model applies the
repair to the incoming tables and records the extended dynamic table in the
result. -/

/-- Modelled from the spec: the `DT_NEEDED` append is performed by the
external `object_rewrite` crate (`Rewriter::elf_add_needed`), whose code is
not part of this repository; per the specification's interface description
(§4.3 step 1 and §6.3) it appends one `DT_NEEDED` entry per requested
library name to the dynamic table. -/
def elf_add_needed (dyns : List DynEntry) (libs : List (List Nat)) : List DynEntry :=
  dyns ++ libs.map (fun nm => { tag := dt_needed, val := nm })

/-- The `PT_DYNAMIC` size repair: `if let Some(dynamic_segment) = ...` with
a context error only when the segment exists but no `SHT_DYNAMIC` section
does.  (The source also reassigns `dynamic_section.sh_size` to its own
value, a no-op.) -/
def fixDynamicSizes (segs : List ElfSegment) (secs : List ElfSection) :
    Except String (List ElfSegment) :=
  match segs.find? isDynamicSeg with
  | none => Except.ok segs
  | some _ =>
    match secs.find? isDynamicSec with
    | none => Except.error "Failed to find .dynamic section"
    | some dsec =>
      match updateFirst isDynamicSeg (setPhdrSize dsec.sh_size) segs with
      | some r => Except.ok r.1
      | none => Except.ok segs

def add_needed_library (m : ElfModel) (lib : List Nat) : Except String ElfModel :=
  match fixDynamicSizes m.segments m.sections with
  | Except.error msg => Except.error msg
  | Except.ok segs2 =>
    Except.ok { segments := segs2, sections := m.sections,
                dynamics := elf_add_needed m.dynamics [lib] }

theorem fixDynamicSizes_spec (segs : List ElfSegment) (secs : List ElfSection)
    (out : List ElfSegment) (h : fixDynamicSizes segs secs = Except.ok out) :
    ∀ dseg, out.find? isDynamicSeg = some dseg →
      ∃ dsec, secs.find? isDynamicSec = some dsec ∧
        dseg.p_filesz = dsec.sh_size ∧ dseg.p_memsz = dsec.sh_size := by
  intro dseg hd
  unfold fixDynamicSizes at h
  cases hseg : segs.find? isDynamicSeg with
  | none =>
    simp only [hseg] at h
    have hout : segs = out := Except.ok.inj h
    rw [← hout, hseg] at hd
    cases hd
  | some s0 =>
    simp only [hseg] at h
    cases hsec : secs.find? isDynamicSec with
    | none =>
      simp only [hsec] at h
      exact Except.noConfusion h
    | some dsec =>
      simp only [hsec] at h
      cases hupd : updateFirst isDynamicSeg (setPhdrSize dsec.sh_size) segs with
      | none =>
        have := (updateFirst_eq_none_iff _ _ _).mp hupd
        rw [this] at hseg
        cases hseg
      | some r =>
        obtain ⟨segs2, t⟩ := r
        simp only [hupd] at h
        have hout : segs2 = out := Except.ok.inj h
        subst hout
        have hdec := updateFirst_some_decomp _ _ _ _ _ hupd
        have hfirst : segs2.find? isDynamicSeg = some (setPhdrSize dsec.sh_size t) :=
          updateFirst_find?_self _ _ _ _ _ hupd
            (by rw [show isDynamicSeg (setPhdrSize dsec.sh_size t) = isDynamicSeg t from rfl]
                exact hdec.1)
        rw [hfirst] at hd
        have hds := Option.some.inj hd
        exact ⟨dsec, rfl, by rw [← hds]; rfl, by rw [← hds]; rfl⟩

/-- C8: after `add_needed_library(L)` succeeds on an ELF input, every
`PT_DYNAMIC` segment found in the output carries
`p_filesz == p_memsz == .dynamic.sh_size` (the authoritative value taken
from the `SHT_DYNAMIC` section), and the output's dynamic table enumerates
`L` among its `DT_NEEDED` entries. -/
theorem add_needed_library_spec (m : ElfModel) (lib : List Nat) (out : ElfModel)
    (h : add_needed_library m lib = Except.ok out) :
    (∃ d ∈ out.dynamics, d.tag = dt_needed ∧ d.val = lib) ∧
    (∀ dseg, out.segments.find? isDynamicSeg = some dseg →
      ∃ dsec, out.sections.find? isDynamicSec = some dsec ∧
        dseg.p_filesz = dsec.sh_size ∧ dseg.p_memsz = dsec.sh_size) := by
  unfold add_needed_library at h
  cases hf : fixDynamicSizes m.segments m.sections with
  | error msg =>
    simp only [hf] at h
    exact Except.noConfusion h
  | ok segs2 =>
    simp only [hf] at h
    have hout := Except.ok.inj h
    subst hout
    constructor
    · refine ⟨{ tag := dt_needed, val := lib }, ?_, rfl, rfl⟩
      simp [elf_add_needed]
    · intro dseg hd
      exact fixDynamicSizes_spec m.segments m.sections segs2 hf dseg hd

def dynSegW8 : ElfSegment :=
  { p_type := 2, p_offset := 512, p_vaddr := 512, p_filesz := 999, p_memsz := 999,
    secIds := [4] }

def dynSecW8 : ElfSection :=
  { sh_type := 6, sh_offset := 512, sh_addr := 512, sh_size := 1040 }

def libW8 : List Nat := [108, 105, 98, 116, 101, 115, 116]

def mW8 : ElfModel :=
  { segments := [dynSegW8], sections := [dynSecW8],
    dynamics := [{ tag := 5, val := [640] }] }

def outW8 : ElfModel :=
  exceptOkD (add_needed_library mW8 libW8) { segments := [], sections := [], dynamics := [] }

theorem add_needed_library_spec_witness :
    (∃ d ∈ outW8.dynamics, d.tag = dt_needed ∧ d.val = libW8) ∧
    (∀ dseg, outW8.segments.find? isDynamicSeg = some dseg →
      ∃ dsec, outW8.sections.find? isDynamicSec = some dsec ∧
        dseg.p_filesz = dsec.sh_size ∧ dseg.p_memsz = dsec.sh_size) :=
  add_needed_library_spec mW8 libW8 outW8 (by rfl)

/-! ## Claim C1: the anti_anti_frida string sanitizer (src/binary.rs,
lines 288-371)

The source obtains the `.rodata` and `.dynstr` file-offset ranges, then for
each keyword repeatedly calls `memchr::memmem::find(&self.data[pos..], kw)`
and, at each found absolute offset `i`:

    if !rodata_range.contains(&i) && !dynstr_range.contains(&i) {
        pos = i + kw.len(); continue;           // SKIP (outside both ranges)
    }
    self.data[i..i + kw.len()].copy_from_slice(replacement);
    pos = i + kw.len();                          // REPLACE (inside a range)

i.e. matches starting OUTSIDE `.rodata`/`.dynstr` are skipped, and matches
starting INSIDE one of the two ranges are overwritten.  The random
same-length replacements of `generate_random_string` enter as parameters.
The loop advances `pos` by at least one per iteration (keywords are
nonempty), so fuel `data.length + 1` never runs out. -/

/-- `Range::contains` for the half-open interval `[r.1, r.2)`. -/
def inRange (r : Nat × Nat) (i : Nat) : Bool :=
  decide (r.1 ≤ i) && decide (i < r.2)

/-- A full match of `pat` at offset `i` (memmem semantics: the needle lies
entirely inside the haystack). -/
def occursAt (data pat : List Nat) (i : Nat) : Bool :=
  decide (i + pat.length ≤ data.length) && (bytesAt data i pat.length == pat)

/-- `memchr::memmem::find(&data[pos..], pat)`, with the absolute offset of
the first match returned. -/
def findFrom (data pat : List Nat) (pos : Nat) : Option Nat :=
  (List.range (data.length + 1)).find? (fun i => decide (pos ≤ i) && occursAt data pat i)

/-- The replacement predicate: the match start lies inside `.rodata` or
inside `.dynstr`. -/
def protRanges (ro dy : Nat × Nat) (i : Nat) : Bool := inRange ro i || inRange dy i

/-- The scan loop for one keyword.  `writeBytes data i repl` models
`copy_from_slice`, which in the source always receives a replacement of
exactly the keyword's length. -/
def replaceLoop (prot : Nat → Bool) (pat repl : List Nat) :
    Nat → List Nat → Nat → List Nat
  | _, data, 0 => data
  | pos, data, fuel + 1 =>
    match findFrom data pat pos with
    | none => data
    | some i =>
      if prot i then
        replaceLoop prot pat repl (i + pat.length) (writeBytes data i repl) fuel
      else
        replaceLoop prot pat repl (i + pat.length) data fuel

/-- The whole keyword pass of `anti_anti_frida` over the raw file buffer,
given the two protected ranges and the keyword/replacement table. -/
def anti_anti_frida_core (ro dy : Nat × Nat) (kws : List (List Nat × List Nat))
    (data : List Nat) : List Nat :=
  kws.foldl
    (fun d kw => replaceLoop (protRanges ro dy) kw.1 kw.2 0 d (d.length + 1)) data

def strBytes (s : String) : List Nat := s.data.map Char.toNat

/-- The keyword table of `anti_anti_frida`, in source order; `r k` is the
random same-length alphanumeric replacement (`generate_random_string`)
produced for the k-th keyword without an explicit replacement. -/
def keywordTable (r : Nat → List Nat) : List (List Nat × List Nat) :=
  [ (strBytes "frida", r 0),
    (strBytes "GMainLoop", strBytes "pool-6-th"),
    (strBytes "gum-js-loop", strBytes "pool-6-thre"),
    (strBytes "gmain", strBytes "Timer"),
    (strBytes "gum-js", r 1),
    (strBytes "gum", r 2),
    (strBytes "gdbus", r 3),
    (strBytes "Gum", r 4),
    (strBytes "Frida", r 5),
    (strBytes "GUM", r 6),
    (strBytes "GDBus", r 7),
    (strBytes "g_dbus", r 8),
    (strBytes "g_main", r 9),
    (strBytes "GMain", r 10),
    (strBytes "solist", r 11),
    (strBytes "GLib-GIO", r 12),
    (strBytes "GLib", r 13) ]

/-- Same-length stand-ins for the random replacements (byte 88 repeated to
each keyword's length). -/
def randLensC1 : List Nat := [5, 6, 3, 5, 3, 5, 3, 5, 6, 6, 5, 6, 8, 4]

def randC1 (k : Nat) : List Nat := List.replicate (randLensC1.getD k 0) 88

def roC1 : Nat × Nat := (0, 10)

def dyC1 : Nat × Nat := (10, 10)

def dataC1 : List Nat := strBytes "..gmain..."

/-- Counterexample to C1 as stated: the byte at offset 2 lies inside the
`.rodata` file-offset range `[0, 10)`, yet `anti_anti_frida` changes it:
the keyword `gmain` matching at offset 2 starts inside the protected range,
and the source overwrites exactly such matches (with `Timer`), skipping the
ones outside. -/
theorem anti_anti_frida_modifies_rodata :
    inRange roC1 2 = true ∧
    (anti_anti_frida_core roC1 dyC1 (keywordTable randC1) dataC1)[2]? ≠ dataC1[2]? := by
  refine ⟨by decide, by decide⟩

theorem findFrom_some_bounds (data pat : List Nat) (pos i : Nat)
    (h : findFrom data pat pos = some i) :
    pos ≤ i ∧ i + pat.length ≤ data.length := by
  have hp := List.find?_some h
  simp only [occursAt, Bool.and_eq_true, decide_eq_true_eq] at hp
  exact ⟨hp.1, hp.2.1⟩

theorem replaceLoop_change_in_window (prot : Nat → Bool) (pat repl : List Nat)
    (hlen : repl.length = pat.length) :
    ∀ fuel pos data j,
      (replaceLoop prot pat repl pos data fuel)[j]? ≠ data[j]? →
      ∃ m, prot m = true ∧ m ≤ j ∧ j < m + pat.length := by
  intro fuel
  induction fuel with
  | zero =>
    intro pos data j h
    exact absurd rfl h
  | succ fuel ih =>
    intro pos data j h
    rw [replaceLoop] at h
    cases hf : findFrom data pat pos with
    | none =>
      simp only [hf] at h
      exact absurd rfl h
    | some i =>
      simp only [hf] at h
      have hb := findFrom_some_bounds data pat pos i hf
      cases hpr : prot i with
      | true =>
        rw [hpr, if_pos rfl] at h
        have hle : i + repl.length ≤ data.length := by
          rw [hlen]
          omega
        by_cases hw : (replaceLoop prot pat repl (i + pat.length)
            (writeBytes data i repl) fuel)[j]? = (writeBytes data i repl)[j]?
        · have hww : (writeBytes data i repl)[j]? ≠ data[j]? := by
            rw [← hw]
            exact h
          by_cases hj1 : j < i
          · exact absurd (writeBytes_getElem?_lt data repl i j hle hj1) hww
          · by_cases hj2 : i + repl.length ≤ j
            · exact absurd (writeBytes_getElem?_ge data repl i j hle hj2) hww
            · exact ⟨i, hpr, by omega, by omega⟩
        · exact ih (i + pat.length) (writeBytes data i repl) j hw
      | false =>
        rw [hpr, if_neg Bool.false_ne_true] at h
        exact ih (i + pat.length) data j h

/-- C1 (amended): the sanitizer's replacement condition is the inverse of
the claim: a keyword match whose start offset lies outside both the
`.rodata` and the `.dynstr` file-offset ranges is SKIPPED, and only matches
whose start offset lies inside one of the two ranges are overwritten in
place with same-length replacement bytes; consequently every byte at which
the output differs from the input lies inside a window of one keyword's
length starting at an offset in `.rodata` or `.dynstr`. -/
theorem anti_anti_frida_core_writes_only_protected (ro dy : Nat × Nat) :
    ∀ kws : List (List Nat × List Nat),
      (∀ kw ∈ kws, (kw.2).length = (kw.1).length) →
      ∀ data j, (anti_anti_frida_core ro dy kws data)[j]? ≠ data[j]? →
      ∃ kw ∈ kws, ∃ m, protRanges ro dy m = true ∧ m ≤ j ∧ j < m + (kw.1).length := by
  intro kws
  induction kws with
  | nil =>
    intro _ data j h
    exact absurd rfl h
  | cons kw rest ih =>
    intro hlen data j h
    have h' : (anti_anti_frida_core ro dy rest
        (replaceLoop (protRanges ro dy) kw.1 kw.2 0 data (data.length + 1)))[j]? ≠
        data[j]? := h
    by_cases hs : (replaceLoop (protRanges ro dy) kw.1 kw.2 0 data
        (data.length + 1))[j]? = data[j]?
    · have h2 : (anti_anti_frida_core ro dy rest
          (replaceLoop (protRanges ro dy) kw.1 kw.2 0 data (data.length + 1)))[j]? ≠
          (replaceLoop (protRanges ro dy) kw.1 kw.2 0 data (data.length + 1))[j]? := by
        rw [hs]
        exact h'
      obtain ⟨kw', hkmem, m, hm⟩ :=
        ih (fun k hk => hlen k (List.mem_cons_of_mem kw hk)) _ j h2
      exact ⟨kw', List.mem_cons_of_mem kw hkmem, m, hm⟩
    · obtain ⟨m, hm1, hm2, hm3⟩ :=
        replaceLoop_change_in_window (protRanges ro dy) kw.1 kw.2
          (hlen kw (List.mem_cons_self kw rest)) (data.length + 1) 0 data j hs
      exact ⟨kw, List.mem_cons_self kw rest, m, hm1, hm2, hm3⟩

theorem anti_anti_frida_core_writes_only_protected_witness :
    ∃ kw ∈ keywordTable randC1, ∃ m, protRanges roC1 dyC1 m = true ∧ m ≤ 4 ∧
      4 < m + (kw.1).length :=
  anti_anti_frida_core_writes_only_protected roC1 dyC1 (keywordTable randC1)
    (by decide) dataC1 4 (by decide)

/-! ## BinaryProcessor::new / into_data

`new` detects the format by parsing (delegated to the external `object`
crate) and stores the input bytes unchanged; `into_data` returns the stored
bytes.  With no intervening operation the returned buffer is therefore the
original input, byte for byte - the pipeline applies no normalization pass
of its own at this point.  (Whether that buffer coincides with a canonical
re-serialization of the input is a property of the external crate's
serializer and is outside this embedding.) -/

/-- `BinaryProcessor::new`: the detected format is produced by the external
parser; the bytes are stored untouched. -/
def BinaryProcessor.mk_new (data : List Nat) (fmt : ObjectFormat) : BinaryProcessor :=
  { data := data, format := fmt }

theorem mk_new_into_data (data : List Nat) (fmt : ObjectFormat) :
    (BinaryProcessor.mk_new data fmt).into_data = data := rfl
